import Mathlib

/-!
# Verification of the repo-team-mapper batch job

A shallow embedding of the Python sources of `repo-team-mapper`
(`src/repo_team_mapper/{processor,api_client,main,config}.py`), together with
theorems settling the behavioural claims about the program.

External effects (HTTP requests, the GitHub client, the filesystem) are
modelled as explicit inputs: every such call site becomes a parameter that
carries the outcome the environment would have produced, and the functions
below reproduce the source's control flow over those outcomes.  A Python
exception that escapes a modelled function is an `Except.error ()` result;
a normal return is `Except.ok`.  Log side effects that carry behavioural
meaning (the unmapped-repository log, error logs, catalog calls) appear in
explicit action traces; plain informational log lines are elided.
-/

/-! ## Data model -/

/-- A committer record as built by `ApiClient.get_top_committers`:
a dict `{"email": ..., "login": ...}`.  `email` is `none` when the dict has
no usable email (the processor also treats the empty string as missing,
mirroring Python falsiness of `""`). -/
structure Committer where
  email : Option String
  login : String
deriving DecidableEq, Repr

/-- Python truthiness of the optional email string: `None` and `""` are falsy. -/
def emailOf (c : Committer) : Option String :=
  match c.email with
  | none => none
  | some e => if e.isEmpty then none else some e

/-- Python truthiness of the value returned by `get_port_user_team`
(`None` or a list): `if teams:` holds exactly for a non-empty list. -/
def teamsTruthy : Option (List String) → Bool
  | none => false
  | some l => !l.isEmpty

/-- Observable actions performed by `RepoProcessor.process_repo`:
the error log on a failed repo resolution, the two kinds of
unmapped-repository records, catalog team lookups and the upsert. -/
inductive ProcAction where
  | logError (repoName : String)
  | unmappedRecord (repoName : String) (reason : String)
  | teamLookup (email : String)
  | upsert (repoName : String) (teamIdentifier : String)
deriving DecidableEq, Repr

def isUpsert : ProcAction → Bool
  | .upsert _ _ => true
  | _ => false

def isTeamLookup : ProcAction → Bool
  | .teamLookup _ => true
  | _ => false

def isUnmapped : ProcAction → Bool
  | .unmappedRecord _ _ => true
  | _ => false

/-- A catalog call is a team lookup or an upsert. -/
def isCatalogCall : ProcAction → Bool
  | .teamLookup _ => true
  | .upsert _ _ => true
  | _ => false

/-! ## `RepoProcessor.process_repo` (processor.py) -/

/-- The `for committer in committers` loop of `process_repo`
(processor.py lines 43-72), producing the trace of observable actions.
`userTeams` is the oracle for `api_client.get_port_user_team`.
Falling off the loop writes the "No committers found belonging to a Port
team." unmapped record. -/
def loopCommitters (repoName : String) (userTeams : String → Option (List String)) :
    List Committer → List ProcAction
  | [] =>
    [ProcAction.unmappedRecord repoName "No committers found belonging to a Port team."]
  | c :: rest =>
    match c.email with
    | none => loopCommitters repoName userTeams rest
    | some e =>
      if e.isEmpty then
        loopCommitters repoName userTeams rest
      else
        ProcAction.teamLookup e ::
          match userTeams e with
          | some (t :: _) => [ProcAction.upsert repoName t]
          | _ => loopCommitters repoName userTeams rest

/-- `RepoProcessor.process_repo` (processor.py lines 20-72).
`repo` is the result of `api_client.get_repo` (`none` models a falsy
return, i.e. resolution failure), `committers` the result of
`api_client.get_top_committers`. -/
def process_repo (repoName : String) (repo : Option Unit)
    (committers : List Committer) (userTeams : String → Option (List String)) :
    List ProcAction :=
  match repo with
  | none => [ProcAction.logError repoName]
  | some _ =>
    if committers.isEmpty then
      [ProcAction.unmappedRecord repoName "No committers with public emails found."]
    else
      loopCommitters repoName userTeams committers

/-- The team-lookup action a committer contributes when it is examined
without producing a match: present exactly when its email is usable. -/
def lookupAction (c : Committer) : Option ProcAction :=
  (emailOf c).map ProcAction.teamLookup

/-! ## `ApiClient` Port operations (api_client.py)

Each operation first calls `_get_port_token` and then performs its own
HTTP requests inside a `try` block that catches
`requests.exceptions.RequestException`.  The token call sits *outside*
that block: its failure is logged and re-raised and therefore escapes the
operation.  HTTP outcomes are supplied as `Except Unit _` inputs
(`error` = a raised `RequestException`). -/

/-- `ApiClient._get_port_token` (api_client.py lines 27-51): returns the
cached token if present, otherwise performs the token request; on request
failure it logs and re-raises. -/
def get_port_token (cached : Option String) (tokenReq : Except Unit String) :
    Except Unit String :=
  match cached with
  | some tok => Except.ok tok
  | none => tokenReq

/-- The `"entity"` object fetched in step 2 of `get_port_user_team`,
restricted to the configured `PORT_USER_TEAM_PROPERTY` key:
`teamProp = none` models an entity dict without that key. -/
structure PortUserEntity where
  teamProp : Option (List String)
deriving DecidableEq, Repr

/-- `ApiClient.get_port_user_team` (api_client.py lines 128-192).
`search email` is the outcome of the step-1 entity search (the list of
matched identifiers, `entities[i]["identifier"]`); `fetchEntity ident` the
outcome of the step-2 entity fetch.  Both steps live in one `try` whose
handler logs and returns `None`. -/
def get_port_user_team (cached : Option String) (tokenReq : Except Unit String)
    (email : String)
    (search : String → Except Unit (List String))
    (fetchEntity : String → Except Unit PortUserEntity) :
    Except Unit (Option (List String)) :=
  match get_port_token cached tokenReq with
  | Except.error _ => Except.error ()
  | Except.ok _ =>
    match search email with
    | Except.error _ => Except.ok none
    | Except.ok [] => Except.ok none
    | Except.ok (ident :: _) =>
      match fetchEntity ident with
      | Except.error _ => Except.ok none
      | Except.ok ent =>
        match ent.teamProp with
        | some teams => Except.ok (some teams)
        | none => Except.ok none

/-- The entity key used by `update_port_repository_team`: `repo_name` with
the configured `"{GITHUB_ORG}/"` prefixToRemove stripped when present. -/
def cleanRepoName (githubOrg repoName : String) : String :=
  let prefixToRemove := githubOrg ++ "/"
  if prefixToRemove.isPrefixOf repoName then
    repoName.drop prefixToRemove.length
  else
    repoName

/-- `ApiClient.update_port_repository_team` (api_client.py lines 203-246):
the upsert POST; a request failure is logged, not re-raised, and the
method returns normally (Python `None`). -/
def update_port_repository_team (cached : Option String)
    (tokenReq : Except Unit String) (githubOrg repoName teamIdentifier : String)
    (postResp : String → Except Unit Unit) : Except Unit Unit :=
  match get_port_token cached tokenReq with
  | Except.error _ => Except.error ()
  | Except.ok _ =>
    match postResp (cleanRepoName githubOrg repoName) with
    | Except.error _ => Except.ok ()
    | Except.ok _ => Except.ok ()

/-- `ApiClient.get_entity` (api_client.py lines 248-271): the fetched
`"entity"` object is opaque here (`α`); a request failure is logged and
the method returns `None`. -/
def get_entity (α : Type) (cached : Option String) (tokenReq : Except Unit String)
    (blueprintIdentifier entityIdentifier : String)
    (resp : Except Unit α) : Except Unit (Option α) :=
  match get_port_token cached tokenReq with
  | Except.error _ => Except.error ()
  | Except.ok _ =>
    match resp with
    | Except.error _ => Except.ok none
    | Except.ok ent => Except.ok (some ent)

/-- `ApiClient.update_entity` (api_client.py lines 273-298): `True` on a
successful PATCH, `False` (logged) on a request failure. -/
def update_entity (cached : Option String) (tokenReq : Except Unit String)
    (blueprintIdentifier entityIdentifier : String)
    (resp : Except Unit Unit) : Except Unit Bool :=
  match get_port_token cached tokenReq with
  | Except.error _ => Except.error ()
  | Except.ok _ =>
    match resp with
    | Except.error _ => Except.ok false
    | Except.ok _ => Except.ok true

/-- `ApiClient.get_all_entities_for_blueprint` (api_client.py lines
300-322): the `"entities"` list on success, the empty list (logged) on a
request failure. -/
def get_all_entities_for_blueprint (α : Type) (cached : Option String)
    (tokenReq : Except Unit String) (blueprintIdentifier : String)
    (resp : Except Unit (List α)) : Except Unit (List α) :=
  match get_port_token cached tokenReq with
  | Except.error _ => Except.error ()
  | Except.ok _ =>
    match resp with
    | Except.error _ => Except.ok []
    | Except.ok entities => Except.ok entities

/-! ## `ApiClient.get_top_committers` (api_client.py lines 90-126) -/

/-- A GitHub user object (`contributor.author` may be absent for
anonymous/deleted authors, and a present user may lack a public email). -/
structure GHUser where
  email : Option String
  login : String
deriving DecidableEq, Repr

/-- One entry of `repo.get_stats_contributors()`. -/
structure ContributorStat where
  total : Nat
  author : Option GHUser
deriving DecidableEq, Repr

/-- `sorted(stats, key=lambda s: s.total, reverse=True)`: Python's stable
sort, descending by total.  Equal totals keep their original order, which
is stable insertion with the non-strict descending relation. -/
def sortByTotalDesc (stats : List ContributorStat) : List ContributorStat :=
  List.insertionSort (fun a b => b.total ≤ a.total) stats

instance : IsTotal ContributorStat (fun a b => b.total ≤ a.total) :=
  ⟨fun a b => Nat.le_total b.total a.total⟩

instance : IsTrans ContributorStat (fun a b => b.total ≤ a.total) :=
  ⟨fun _ _ _ h1 h2 => Nat.le_trans h2 h1⟩

/-- Outcome of the `repo.get_stats_contributors()` call: a raised
`GithubException`/`RequestException` (caught by the surrounding handler),
or a returned value, possibly `None`. -/
inductive StatsFetch where
  | fetchError
  | fetched (stats : Option (List ContributorStat))
deriving DecidableEq, Repr

/-- The committer-details loop of `get_top_committers` (api_client.py
lines 110-120).  `if user and user.email:` appends the record; a falsy
email reaches the warning branch, which reads `user.login` — an
`AttributeError` when the author is absent, and that exception is not
among the caught classes (`GithubException`, `RequestException`), so it
propagates out of the method. -/
def collectDetails : List ContributorStat → Except Unit (List Committer)
  | [] => Except.ok []
  | contributor :: rest =>
    match contributor.author with
    | some user =>
      match user.email with
      | some e =>
        if e.isEmpty then
          collectDetails rest
        else
          match collectDetails rest with
          | Except.ok tail => Except.ok (⟨some e, user.login⟩ :: tail)
          | Except.error u => Except.error u
      | none => collectDetails rest
    | none => Except.error ()

/-- `ApiClient.get_top_committers`: `[]` on a caught fetch failure or a
falsy (absent/empty) statistics result; otherwise sort descending, take
the configured `TOP_COMMITTERS_COUNT`, then collect records with usable
emails. -/
def get_top_committers (topCommittersCount : Nat) (fetch : StatsFetch) :
    Except Unit (List Committer) :=
  match fetch with
  | StatsFetch.fetchError => Except.ok []
  | StatsFetch.fetched none => Except.ok []
  | StatsFetch.fetched (some stats) =>
    if stats.isEmpty then Except.ok []
    else collectDetails ((sortByTotalDesc stats).take topCommittersCount)

/-- The `if user and user.email:` condition of the details loop. -/
def hasPublicEmail (s : ContributorStat) : Bool :=
  match s.author with
  | some user =>
    match user.email with
    | some e => !e.isEmpty
    | none => false
  | none => false

/-! ## `ApiClient.get_all_organization_repos` (api_client.py lines 53-76) -/

/-- Outcome of one attempt of the `get_organization` / `get_repos` pair:
success (the repository listing, as full names), a raised
`GithubException`, or any other raised exception (the broad handler). -/
inductive AttemptResult where
  | ok (repos : List String)
  | githubError
  | unexpectedError
deriving DecidableEq, Repr

def AttemptResult.isFail : AttemptResult → Bool
  | .ok _ => false
  | .githubError => true
  | .unexpectedError => true

/-- Timed/observable events of the retry loop: the numbered attempt and the
`time.sleep(5)` call executed after a failed attempt. -/
inductive FetchEvent where
  | attempt (i : Nat)
  | sleep (seconds : Nat)
deriving DecidableEq, Repr

def isAttemptEv : FetchEvent → Bool
  | .attempt _ => true
  | _ => false

def isSleepEv : FetchEvent → Bool
  | .sleep _ => true
  | _ => false

/-- An attempt event for an attempt whose outcome was a failure. -/
def isFailedAttemptEv (attempts : Nat → AttemptResult) : FetchEvent → Bool
  | .attempt i => (attempts i).isFail
  | _ => false

/-- The `for attempt in range(3)` loop: on success return the listing
immediately; on either exception class log, sleep 5 seconds and move to
the next attempt; `none` when the loop is exhausted. -/
def fetchReposLoop (attempts : Nat → AttemptResult) :
    Nat → Nat → List FetchEvent × Option (List String)
  | 0, _ => ([], none)
  | Nat.succ fuel, i =>
    match attempts i with
    | AttemptResult.ok repos => ([FetchEvent.attempt i], some repos)
    | AttemptResult.githubError =>
      let r := fetchReposLoop attempts fuel (i + 1)
      (FetchEvent.attempt i :: FetchEvent.sleep 5 :: r.1, r.2)
    | AttemptResult.unexpectedError =>
      let r := fetchReposLoop attempts fuel (i + 1)
      (FetchEvent.attempt i :: FetchEvent.sleep 5 :: r.1, r.2)

/-- `ApiClient.get_all_organization_repos`: run the loop with 3 attempts;
if it falls through, log the final error and return `[]`. -/
def get_all_organization_repos (attempts : Nat → AttemptResult) :
    List FetchEvent × List String :=
  let r := fetchReposLoop attempts 3 0
  (r.1, r.2.getD [])

/-! ## `main.py`: worklist loading and the driver -/

/-- Python's `str.strip()` with no argument: remove leading and trailing
whitespace characters. -/
def pyStrip (s : String) : String :=
  ⟨((s.data.dropWhile Char.isWhitespace).reverse.dropWhile
      Char.isWhitespace).reverse⟩

/-- One line of the checkpoint file, as consumed by the comprehension
`[line.strip() for line in f if line.strip()]`: the stripped line when it
is truthy (non-empty), nothing otherwise. -/
def parseCheckpointLine (line : String) : Option String :=
  let s := pyStrip line
  if s.isEmpty then none else some s

/-- `load_repositories_to_process` (main.py lines 38-64).  The filesystem
is the `Option (List String)` checkpoint-file state (`none` = absent,
`some lines` = the file's lines); the result pairs the returned worklist
with the checkpoint state after the call.  `repoNamesResult` is the
outcome of materialising
`[repo.full_name for repo in api_client.get_all_organization_repos()]`:
`error` models an exception raised while iterating the lazy paginated
listing, which the broad `except` turns into a logged `[]` return with no
file written.  On `ok` the state file is created with one name per line. -/
def load_repositories_to_process (checkpoint : Option (List String))
    (repoNamesResult : Except Unit (List String)) :
    List String × Option (List String) :=
  match checkpoint with
  | some fileLines => (fileLines.filterMap parseCheckpointLine, some fileLines)
  | none =>
    match repoNamesResult with
    | Except.ok repoNames => (repoNames, some repoNames)
    | Except.error _ => ([], none)

/-- `process_repo_wrapper` (main.py lines 22-35): runs a unit of work and
swallows (logging) any exception, so it always completes; `true` records a
normal completion, `false` a logged-and-swallowed exception. -/
def process_repo_wrapper (outcome : Except Unit Unit) : Bool :=
  match outcome with
  | Except.ok _ => true
  | Except.error _ => false

/-- The observable outcome of `main` (main.py lines 67-100). -/
structure MainResult where
  dispatched : List String
  unitResults : List Bool
  exitCode : Nat
  finalCheckpoint : Option (List String)
deriving DecidableEq, Repr

/-- `main`: load the worklist; if it is empty, `sys.exit(1)` (before the
state file would be deleted); otherwise submit every repository to the
pool through `process_repo_wrapper`, wait for all futures, delete the
state file, and return (exit code 0). -/
def mainRun (checkpoint : Option (List String))
    (repoNamesResult : Except Unit (List String))
    (outcomes : String → Except Unit Unit) : MainResult :=
  let loaded := load_repositories_to_process checkpoint repoNamesResult
  if loaded.1.isEmpty then
    { dispatched := [], unitResults := [], exitCode := 1,
      finalCheckpoint := loaded.2 }
  else
    { dispatched := loaded.1,
      unitResults := loaded.1.map (fun r => process_repo_wrapper (outcomes r)),
      exitCode := 0,
      finalCheckpoint := none }

/-! ### Loop lemmas -/

theorem loopCommitters_skip {c : Committer} (hc : emailOf c = none)
    (repoName : String) (userTeams : String → Option (List String))
    (rest : List Committer) :
    loopCommitters repoName userTeams (c :: rest) =
      loopCommitters repoName userTeams rest := by
  unfold emailOf at hc
  rcases he : c.email with _ | e
  · simp [loopCommitters, he]
  · rw [he] at hc
    by_cases hemp : e.isEmpty
    · simp [loopCommitters, he, hemp]
    · simp [hemp] at hc

theorem loopCommitters_nomatch {c : Committer} {e : String}
    (hc : emailOf c = some e)
    {userTeams : String → Option (List String)}
    (hf : teamsTruthy (userTeams e) = false)
    (repoName : String) (rest : List Committer) :
    loopCommitters repoName userTeams (c :: rest) =
      ProcAction.teamLookup e :: loopCommitters repoName userTeams rest := by
  unfold emailOf at hc
  rcases he : c.email with _ | e'
  · simp [he] at hc
  · rw [he] at hc
    by_cases hemp : e'.isEmpty
    · simp [hemp] at hc
    · simp [hemp] at hc
      subst hc
      rcases ht : userTeams e' with _ | (_ | ⟨t, ts⟩)
      · simp [loopCommitters, he, hemp, ht]
      · simp [loopCommitters, he, hemp, ht]
      · rw [ht] at hf
        simp [teamsTruthy] at hf

theorem loopCommitters_match {c : Committer} {e t : String} {ts : List String}
    (hc : emailOf c = some e)
    {userTeams : String → Option (List String)}
    (ht : userTeams e = some (t :: ts))
    (repoName : String) (rest : List Committer) :
    loopCommitters repoName userTeams (c :: rest) =
      [ProcAction.teamLookup e, ProcAction.upsert repoName t] := by
  unfold emailOf at hc
  rcases he : c.email with _ | e'
  · simp [he] at hc
  · rw [he] at hc
    by_cases hemp : e'.isEmpty
    · simp [hemp] at hc
    · simp [hemp] at hc
      subst hc
      simp [loopCommitters, he, hemp, ht]

theorem loopCommitters_prefix_nomatch
    (repoName : String) (userTeams : String → Option (List String))
    (tail : List Committer) :
    ∀ pre : List Committer,
      pre.all (fun c' => !teamsTruthy ((emailOf c').bind userTeams)) = true →
      loopCommitters repoName userTeams (pre ++ tail) =
        pre.filterMap lookupAction ++ loopCommitters repoName userTeams tail := by
  intro pre
  induction pre with
  | nil => intro _; simp
  | cons c' pre' ih =>
    intro hall
    rw [List.all_cons, Bool.and_eq_true] at hall
    obtain ⟨hc', hall'⟩ := hall
    rcases hce : emailOf c' with _ | e'
    · rw [List.cons_append, loopCommitters_skip hce, ih hall']
      simp [List.filterMap_cons, lookupAction, hce]
    · rw [hce] at hc'
      simp only [Option.some_bind, Bool.not_eq_true'] at hc'
      rw [List.cons_append, loopCommitters_nomatch hce hc', ih hall']
      simp [List.filterMap_cons, lookupAction, hce]

theorem loopCommitters_countP_isUpsert_le_one
    (repoName : String) (userTeams : String → Option (List String)) :
    ∀ cs : List Committer,
      (loopCommitters repoName userTeams cs).countP isUpsert ≤ 1 := by
  intro cs
  induction cs with
  | nil => simp [loopCommitters, List.countP_cons, isUpsert]
  | cons c rest ih =>
    rcases hce : emailOf c with _ | e
    · rw [loopCommitters_skip hce]; exact ih
    · rcases ht : userTeams e with _ | (_ | ⟨t, ts⟩)
      · rw [loopCommitters_nomatch hce (by rw [ht]; rfl)]
        simpa [List.countP_cons, isUpsert] using ih
      · rw [loopCommitters_nomatch hce (by rw [ht]; rfl)]
        simpa [List.countP_cons, isUpsert] using ih
      · rw [loopCommitters_match hce ht]
        simp [List.countP_cons, List.countP_nil, isUpsert]

theorem process_repo_countP_isUpsert_le_one
    (repoName : String) (userTeams : String → Option (List String))
    (repo : Option Unit) (committers : List Committer) :
    (process_repo repoName repo committers userTeams).countP isUpsert ≤ 1 := by
  rcases repo with _ | u
  · simp [process_repo, List.countP_cons, isUpsert]
  · by_cases hemp : committers.isEmpty
    · simp [process_repo, hemp, List.countP_cons, isUpsert]
    · simp only [process_repo, hemp, if_false]
      exact loopCommitters_countP_isUpsert_le_one repoName userTeams committers

theorem countP_isUpsert_filterMap_lookupAction (cs : List Committer) :
    (cs.filterMap lookupAction).countP isUpsert = 0 := by
  rw [List.countP_eq_zero]
  intro a ha
  rw [List.mem_filterMap] at ha
  obtain ⟨c, _, hc⟩ := ha
  simp only [lookupAction, Option.map_eq_some'] at hc
  obtain ⟨e, _, he⟩ := hc
  subst he
  simp [isUpsert]

/-- C1: the processor examines committers in ranked order; at the first
committer whose catalog lookup yields a non-empty team list it upserts
exactly that list's head and terminates.  The trace consists of one team
lookup per earlier usable committer, the matching lookup, and a single
upsert of the first team; no later committer is looked up, and on any
input the processor performs at most one upsert. -/
theorem process_repo_first_match
    (repoName : String) (userTeams : String → Option (List String))
    (pre post : List Committer) (c : Committer) (e t : String) (ts : List String)
    (hpre : pre.all (fun c' => !teamsTruthy ((emailOf c').bind userTeams)) = true)
    (hc : emailOf c = some e)
    (ht : userTeams e = some (t :: ts)) :
    process_repo repoName (some ()) (pre ++ c :: post) userTeams =
      pre.filterMap lookupAction ++
        [ProcAction.teamLookup e, ProcAction.upsert repoName t] ∧
    (process_repo repoName (some ()) (pre ++ c :: post) userTeams).countP isUpsert = 1 ∧
    (∀ (repo' : Option Unit) (committers' : List Committer),
      (process_repo repoName repo' committers' userTeams).countP isUpsert ≤ 1) := by
  have hnemp : (pre ++ c :: post).isEmpty = false := by
    cases pre <;> simp
  have htrace : process_repo repoName (some ()) (pre ++ c :: post) userTeams =
      pre.filterMap lookupAction ++
        [ProcAction.teamLookup e, ProcAction.upsert repoName t] := by
    simp only [process_repo]
    rw [if_neg (show ¬(pre ++ c :: post).isEmpty = true by
      rw [hnemp]; exact Bool.false_ne_true)]
    rw [loopCommitters_prefix_nomatch repoName userTeams (c :: post) pre hpre,
      loopCommitters_match hc ht]
  refine ⟨htrace, ?_, fun repo' committers' =>
    process_repo_countP_isUpsert_le_one repoName userTeams repo' committers'⟩
  rw [htrace, List.countP_append, countP_isUpsert_filterMap_lookupAction]
  simp [List.countP_cons, List.countP_nil, isUpsert]

/-- Witness for C1, the spec's own example: committers
`[A(no teams), B(teams=[T1]), C(teams=[T2])]` lead to an upsert of `T1`
with no lookup of `C`. -/
theorem process_repo_first_match_witness :
    process_repo "org/repo1" (some ())
        [⟨some "a@x", "a"⟩, ⟨some "b@x", "b"⟩, ⟨some "c@x", "c"⟩]
        (fun e => if e = "a@x" then some [] else if e = "b@x" then some ["T1"]
          else if e = "c@x" then some ["T2"] else none) =
      [ProcAction.teamLookup "a@x", ProcAction.teamLookup "b@x",
        ProcAction.upsert "org/repo1" "T1"] := by
  have h := process_repo_first_match "org/repo1"
      (fun e => if e = "a@x" then some [] else if e = "b@x" then some ["T1"]
        else if e = "c@x" then some ["T2"] else none)
      [⟨some "a@x", "a"⟩] [⟨some "c@x", "c"⟩] ⟨some "b@x", "b"⟩ "b@x" "T1" []
      (by decide) (by decide) (by decide)
  simpa [lookupAction, emailOf] using h.1

theorem loopCommitters_countP_isUnmapped
    (repoName : String) (userTeams : String → Option (List String)) :
    ∀ cs : List Committer,
      (loopCommitters repoName userTeams cs).countP isUnmapped =
        (if cs.all (fun c => !teamsTruthy ((emailOf c).bind userTeams))
          then 1 else 0) := by
  intro cs
  induction cs with
  | nil => simp [loopCommitters, List.countP_cons, List.countP_nil, isUnmapped]
  | cons c rest ih =>
    rcases hce : emailOf c with _ | e
    · rw [loopCommitters_skip hce, ih]
      simp [List.all_cons, hce, teamsTruthy]
    · rcases ht : userTeams e with _ | (_ | ⟨t, ts⟩)
      · rw [loopCommitters_nomatch hce (by rw [ht]; rfl), List.countP_cons]
        simp [isUnmapped, ih, List.all_cons, hce, ht, teamsTruthy]
      · rw [loopCommitters_nomatch hce (by rw [ht]; rfl), List.countP_cons]
        simp [isUnmapped, ih, List.all_cons, hce, ht, teamsTruthy]
      · rw [loopCommitters_match hce ht]
        simp [List.countP_cons, List.countP_nil, isUnmapped, List.all_cons,
          hce, ht, teamsTruthy]

/-- C5: the processor writes exactly one unmapped-repository record iff the
committer list is empty or every committer fails to yield a non-empty team
list; when repository resolution fails it only logs an error — no unmapped
record and no catalog call — and an empty committer list never triggers a
catalog call. -/
theorem process_repo_unmapped_records
    (repoName : String) (committers : List Committer)
    (userTeams : String → Option (List String)) :
    process_repo repoName none committers userTeams =
      [ProcAction.logError repoName] ∧
    (process_repo repoName none committers userTeams).countP isUnmapped = 0 ∧
    (process_repo repoName none committers userTeams).countP isCatalogCall = 0 ∧
    (process_repo repoName (some ()) committers userTeams).countP isUnmapped =
      (if committers.isEmpty ||
          committers.all (fun c => !teamsTruthy ((emailOf c).bind userTeams))
        then 1 else 0) ∧
    (process_repo repoName (some ()) ([] : List Committer) userTeams).countP
        isCatalogCall = 0 := by
  refine ⟨rfl, by simp [process_repo, List.countP_cons, isUnmapped],
    by simp [process_repo, List.countP_cons, isCatalogCall], ?_,
    by simp [process_repo, List.countP_cons, isCatalogCall]⟩
  by_cases hemp : committers.isEmpty
  · have : committers = [] := by simpa using hemp
    subst this
    simp [process_repo, List.countP_cons, List.countP_nil, isUnmapped]
  · have hemp' : committers.isEmpty = false := by simpa using hemp
    simp only [process_repo]
    rw [if_neg hemp, loopCommitters_countP_isUnmapped, hemp']
    simp

/-- C4: with a token available, `get_port_user_team` returns `None` when no
user matches, when the team property is absent, or when either lookup
request fails; it returns the team list itself (so `[]` when the property
is present but empty); `None` and `[]` are distinct values. -/
theorem find_user_teams_outcomes
    (tok email : String) (tokenReq : Except Unit String)
    (search : String → Except Unit (List String))
    (fetchEntity : String → Except Unit PortUserEntity) :
    (search email = Except.ok [] →
      get_port_user_team (some tok) tokenReq email search fetchEntity =
        Except.ok none) ∧
    (search email = Except.error () →
      get_port_user_team (some tok) tokenReq email search fetchEntity =
        Except.ok none) ∧
    (∀ ident rest, search email = Except.ok (ident :: rest) →
      fetchEntity ident = Except.error () →
      get_port_user_team (some tok) tokenReq email search fetchEntity =
        Except.ok none) ∧
    (∀ ident rest, search email = Except.ok (ident :: rest) →
      fetchEntity ident = Except.ok ⟨none⟩ →
      get_port_user_team (some tok) tokenReq email search fetchEntity =
        Except.ok none) ∧
    (∀ ident rest teams, search email = Except.ok (ident :: rest) →
      fetchEntity ident = Except.ok ⟨some teams⟩ →
      get_port_user_team (some tok) tokenReq email search fetchEntity =
        Except.ok (some teams)) ∧
    some ([] : List String) ≠ (none : Option (List String)) := by
  refine ⟨?_, ?_, ?_, ?_, ?_, by simp⟩
  · intro h; simp [get_port_user_team, get_port_token, h]
  · intro h; simp [get_port_user_team, get_port_token, h]
  · intro ident rest h1 h2
    simp [get_port_user_team, get_port_token, h1, h2]
  · intro ident rest h1 h2
    simp [get_port_user_team, get_port_token, h1, h2]
  · intro ident rest teams h1 h2
    simp [get_port_user_team, get_port_token, h1, h2]

/-- Witness for C4: the `None` and `[]` outcomes at concrete inputs
(the tests' `user123` scenario). -/
theorem find_user_teams_outcomes_witness :
    get_port_user_team (some "tk") (Except.ok "tk") "nouser@example.com"
      (fun _ => Except.ok []) (fun _ => Except.ok ⟨none⟩) = Except.ok none ∧
    get_port_user_team (some "tk") (Except.ok "tk") "userwithemptyteams@example.com"
      (fun _ => Except.ok ["user123"]) (fun _ => Except.ok ⟨some []⟩) =
      Except.ok (some []) :=
  ⟨(find_user_teams_outcomes "tk" "nouser@example.com" (Except.ok "tk")
      (fun _ => Except.ok []) (fun _ => Except.ok ⟨none⟩)).1 rfl,
   (find_user_teams_outcomes "tk" "userwithemptyteams@example.com" (Except.ok "tk")
      (fun _ => Except.ok ["user123"]) (fun _ => Except.ok ⟨some []⟩)).2.2.2.2.1
      "user123" [] [] rfl rfl⟩

/-- Counterexample for C2: when no token is cached and the bearer-token
request fails, `get_port_user_team` raises (the exception re-raised by
`_get_port_token` escapes to the caller) instead of returning its `None`
sentinel. -/
theorem find_user_teams_raises_on_token_failure :
    get_port_user_team none (Except.error ()) "user@example.com"
      (fun _ => Except.ok []) (fun _ => Except.ok ⟨none⟩) =
      Except.error () := rfl

/-- C2 (amended): once a bearer token is available, every catalog operation
converts a failure of its own HTTP request into its sentinel value
(`None`, `[]`, `False`, or a plain `None` return for the upsert) without
raising; but a failure of the bearer-token request itself propagates as an
exception out of every operation. -/
theorem catalog_ops_failure_behaviour :
    (∀ (tok email : String) (tokenReq : Except Unit String)
        (fetchEntity : String → Except Unit PortUserEntity),
      get_port_user_team (some tok) tokenReq email (fun _ => Except.error ())
        fetchEntity = Except.ok none) ∧
    (∀ (tok : String) (tokenReq : Except Unit String)
        (githubOrg repoName teamIdentifier : String),
      update_port_repository_team (some tok) tokenReq githubOrg repoName
        teamIdentifier (fun _ => Except.error ()) = Except.ok ()) ∧
    (∀ (tok : String) (tokenReq : Except Unit String)
        (blueprintIdentifier entityIdentifier : String),
      get_entity Unit (some tok) tokenReq blueprintIdentifier entityIdentifier
        (Except.error ()) = Except.ok none) ∧
    (∀ (tok : String) (tokenReq : Except Unit String)
        (blueprintIdentifier entityIdentifier : String),
      update_entity (some tok) tokenReq blueprintIdentifier entityIdentifier
        (Except.error ()) = Except.ok false) ∧
    (∀ (tok : String) (tokenReq : Except Unit String)
        (blueprintIdentifier : String),
      get_all_entities_for_blueprint Unit (some tok) tokenReq
        blueprintIdentifier (Except.error ()) = Except.ok []) ∧
    (∀ (email : String) (search : String → Except Unit (List String))
        (fetchEntity : String → Except Unit PortUserEntity),
      get_port_user_team none (Except.error ()) email search fetchEntity =
        Except.error ()) ∧
    (∀ (githubOrg repoName teamIdentifier : String)
        (postResp : String → Except Unit Unit),
      update_port_repository_team none (Except.error ()) githubOrg repoName
        teamIdentifier postResp = Except.error ()) ∧
    (∀ (blueprintIdentifier entityIdentifier : String) (resp : Except Unit Unit),
      get_entity Unit none (Except.error ()) blueprintIdentifier
        entityIdentifier resp = Except.error ()) ∧
    (∀ (blueprintIdentifier entityIdentifier : String) (resp : Except Unit Unit),
      update_entity none (Except.error ()) blueprintIdentifier
        entityIdentifier resp = Except.error ()) ∧
    (∀ (blueprintIdentifier : String) (resp : Except Unit (List Unit)),
      get_all_entities_for_blueprint Unit none (Except.error ())
        blueprintIdentifier resp = Except.error ()) := by
  refine ⟨?_, ?_, ?_, ?_, ?_, ?_, ?_, ?_, ?_, ?_⟩ <;> intros <;> rfl

/-! ### Supporting facts about `get_top_committers` -/

theorem sortByTotalDesc_sorted (stats : List ContributorStat) :
    (sortByTotalDesc stats).Sorted (fun a b => b.total ≤ a.total) :=
  List.sorted_insertionSort _ stats

theorem sortByTotalDesc_perm (stats : List ContributorStat) :
    (sortByTotalDesc stats).Perm stats :=
  List.perm_insertionSort _ stats

theorem get_top_committers_empty_results (topCommittersCount : Nat) :
    get_top_committers topCommittersCount StatsFetch.fetchError =
      Except.ok [] ∧
    get_top_committers topCommittersCount (StatsFetch.fetched none) =
      Except.ok [] ∧
    get_top_committers topCommittersCount (StatsFetch.fetched (some [])) =
      Except.ok [] := ⟨rfl, rfl, rfl⟩

theorem collectDetails_emails :
    ∀ (cs : List ContributorStat) (l : List Committer),
      collectDetails cs = Except.ok l →
      ∀ cm ∈ l, (emailOf cm).isSome = true := by
  intro cs
  induction cs with
  | nil =>
    intro l h cm hcm
    simp only [collectDetails, Except.ok.injEq] at h
    subst h
    simp at hcm
  | cons contributor rest ih =>
    intro l h cm hcm
    rcases ha : contributor.author with _ | user
    · simp [collectDetails, ha] at h
    · rcases he : user.email with _ | e
      · simp only [collectDetails, ha, he] at h
        exact ih l h cm hcm
      · by_cases hemp : e.isEmpty
        · simp only [collectDetails, ha, he, hemp, if_true] at h
          exact ih l h cm hcm
        · rcases hr : collectDetails rest with u | tail
          · simp [collectDetails, ha, he, hemp, hr] at h
          · simp only [collectDetails, ha, he, hemp, hr, if_false,
              Except.ok.injEq] at h
            rw [if_neg (by simp [hemp])] at h
            injection h with h
            subst h
            rcases List.mem_cons.mp hcm with hcm1 | hcm2
            · subst hcm1
              simp [emailOf, hemp]
            · exact ih tail hr cm hcm2

/-- C6: evaluating `get_top_committers` at a statistics result containing an
entry with no author (`{"total": 10, "author": null}`).  The claim (and the
guard `if user and user.email:` in the code itself) expects the entry to be
omitted with a warning, but the warning call dereferences `user.login` and
the resulting `AttributeError` escapes the method instead of an empty or
filtered list being returned. -/
theorem top_committers_null_author_crash :
    get_top_committers 5 (StatsFetch.fetched (some [⟨10, none⟩])) =
      Except.error () := rfl

/-- C8: the truncation to the top `TOP_COMMITTERS_COUNT` happens before
email-less committers are discarded — with `K = 2` and four contributors,
three of which have public emails, only one record is returned — and every
record a successful call returns carries a usable (non-empty) email, so
the processor's email skip branch can never fire on them. -/
theorem top_committers_truncate_before_email_filter :
    get_top_committers 2 (StatsFetch.fetched (some
        [⟨10, some ⟨none, "a"⟩⟩, ⟨5, some ⟨some "b@x.com", "b"⟩⟩,
          ⟨3, some ⟨some "c@x.com", "c"⟩⟩, ⟨2, some ⟨some "d@x.com", "d"⟩⟩])) =
      Except.ok [⟨some "b@x.com", "b"⟩] ∧
    ([⟨10, some ⟨none, "a"⟩⟩, ⟨5, some ⟨some "b@x.com", "b"⟩⟩,
        ⟨3, some ⟨some "c@x.com", "c"⟩⟩,
        ⟨2, some ⟨some "d@x.com", "d"⟩⟩] : List ContributorStat).countP
      hasPublicEmail = 3 ∧
    (∀ (topCommittersCount : Nat) (fetch : StatsFetch) (l : List Committer),
      get_top_committers topCommittersCount fetch = Except.ok l →
      ∀ cm ∈ l, (emailOf cm).isSome = true) := by
  refine ⟨rfl, rfl, ?_⟩
  intro topCommittersCount fetch l h cm hcm
  rcases fetch with _ | (_ | stats)
  · simp only [get_top_committers, Except.ok.injEq] at h
    subst h
    simp at hcm
  · simp only [get_top_committers, Except.ok.injEq] at h
    subst h
    simp at hcm
  · by_cases hemp : stats.isEmpty
    · simp only [get_top_committers, hemp, if_true, Except.ok.injEq] at h
      subst h
      simp at hcm
    · simp only [get_top_committers] at h
      rw [if_neg hemp] at h
      exact collectDetails_emails _ l h cm hcm

/-- Witness for C8: the single record returned in the truncation scenario
indeed carries a usable email. -/
theorem top_committers_truncate_witness :
    (emailOf ⟨some "b@x.com", "b"⟩).isSome = true := by
  have h := top_committers_truncate_before_email_filter
  exact h.2.2 2 (StatsFetch.fetched (some
      [⟨10, some ⟨none, "a"⟩⟩, ⟨5, some ⟨some "b@x.com", "b"⟩⟩,
        ⟨3, some ⟨some "c@x.com", "c"⟩⟩, ⟨2, some ⟨some "d@x.com", "d"⟩⟩]))
    [⟨some "b@x.com", "b"⟩] h.1 ⟨some "b@x.com", "b"⟩
    (List.mem_singleton.mpr rfl)

/-- When all three attempts fail, the trace shows three attempts, each
followed by a 5-second sleep, and the returned listing is empty. -/
theorem get_all_org_repos_all_fail (attempts : Nat → AttemptResult)
    (hf : ∀ i, i < 3 → (attempts i).isFail = true) :
    get_all_organization_repos attempts =
      ([FetchEvent.attempt 0, FetchEvent.sleep 5, FetchEvent.attempt 1,
        FetchEvent.sleep 5, FetchEvent.attempt 2, FetchEvent.sleep 5],
        []) := by
  have g0 := hf 0 (by decide)
  have g1 := hf 1 (by decide)
  have g2 := hf 2 (by decide)
  rcases h0 : attempts 0 with r0 | _ | _ <;>
    rcases h1 : attempts 1 with r1 | _ | _ <;>
    rcases h2 : attempts 2 with r2 | _ | _ <;>
    rw [h0] at g0 <;> rw [h1] at g1 <;> rw [h2] at g2 <;>
    simp [AttemptResult.isFail] at g0 g1 g2 <;>
    simp [get_all_organization_repos, fetchReposLoop, h0, h1, h2]

/-- C7: the organization listing is attempted at most 3 times; every sleep
lasts exactly 5 seconds; there is one sleep per failed attempt, whichever
kind of exception caused it; and when all 3 attempts fail the call returns
the empty list (rather than raising), having slept after each failure. -/
theorem org_repos_retry_policy (attempts : Nat → AttemptResult) :
    (get_all_organization_repos attempts).1.countP isAttemptEv ≤ 3 ∧
    (∀ s, FetchEvent.sleep s ∈ (get_all_organization_repos attempts).1 →
      s = 5) ∧
    (get_all_organization_repos attempts).1.countP isSleepEv =
      (get_all_organization_repos attempts).1.countP
        (isFailedAttemptEv attempts) ∧
    ((∀ i, i < 3 → (attempts i).isFail = true) →
      get_all_organization_repos attempts =
        ([FetchEvent.attempt 0, FetchEvent.sleep 5, FetchEvent.attempt 1,
          FetchEvent.sleep 5, FetchEvent.attempt 2, FetchEvent.sleep 5],
          [])) := by
  refine ⟨?_, ?_, ?_, ?_⟩
  · rcases h0 : attempts 0 with r0 | _ | _ <;>
      rcases h1 : attempts 1 with r1 | _ | _ <;>
      rcases h2 : attempts 2 with r2 | _ | _ <;>
      simp [get_all_organization_repos, fetchReposLoop, h0, h1, h2,
        List.countP_cons, List.countP_nil, isAttemptEv]
  · rcases h0 : attempts 0 with r0 | _ | _ <;>
      rcases h1 : attempts 1 with r1 | _ | _ <;>
      rcases h2 : attempts 2 with r2 | _ | _ <;>
      simp [get_all_organization_repos, fetchReposLoop, h0, h1, h2]
  · rcases h0 : attempts 0 with r0 | _ | _ <;>
      rcases h1 : attempts 1 with r1 | _ | _ <;>
      rcases h2 : attempts 2 with r2 | _ | _ <;>
      simp [get_all_organization_repos, fetchReposLoop, h0, h1, h2,
        List.countP_cons, List.countP_nil, isSleepEv, isFailedAttemptEv,
        AttemptResult.isFail]
  · exact fun hf => get_all_org_repos_all_fail attempts hf

/-- Witness for C7: with every attempt raising a `GithubException`, the run
makes exactly 3 attempts, sleeps 5 seconds after each, and returns `[]`. -/
theorem org_repos_retry_policy_witness :
    get_all_organization_repos (fun _ => AttemptResult.githubError) =
      ([FetchEvent.attempt 0, FetchEvent.sleep 5, FetchEvent.attempt 1,
        FetchEvent.sleep 5, FetchEvent.attempt 2, FetchEvent.sleep 5],
        []) :=
  (org_repos_retry_policy (fun _ => AttemptResult.githubError)).2.2.2
    (fun _ _ => rfl)

/-- Counterexample for C3: no checkpoint file exists and the organization
query fails (all three retries exhausted, so `get_all_organization_repos`
returns the literal `[]` and materialising it trivially succeeds).  The
load returns the empty worklist but *does* create a checkpoint file — an
empty one (`some []`), not no file (`none`). -/
theorem load_creates_empty_checkpoint_on_query_failure :
    load_repositories_to_process none
        (Except.ok (get_all_organization_repos
          (fun _ => AttemptResult.githubError)).2) = ([], some []) ∧
    (some ([] : List String)) ≠ (none : Option (List String)) :=
  ⟨rfl, by simp⟩

/-- C3 (amended): when no checkpoint exists and the organization query
fails by exhausting its retries, the load returns the empty worklist but
writes an *empty* checkpoint file; no checkpoint is created only when an
exception escapes while materialising the listing (then the load also
returns the empty worklist); on success the checkpoint holds one
repository name per line. -/
theorem load_fresh_query_failure_behaviour
    (attempts : Nat → AttemptResult) (repoNames : List String) :
    ((∀ i, i < 3 → (attempts i).isFail = true) →
      load_repositories_to_process none
        (Except.ok (get_all_organization_repos attempts).2) =
        ([], some [])) ∧
    load_repositories_to_process none (Except.error ()) = ([], none) ∧
    load_repositories_to_process none (Except.ok repoNames) =
      (repoNames, some repoNames) := by
  refine ⟨?_, rfl, rfl⟩
  intro hf
  rw [get_all_org_repos_all_fail attempts hf]
  rfl

/-- Witness for C3's amended statement, with every attempt failing
unexpectedly. -/
theorem load_fresh_query_failure_behaviour_witness :
    load_repositories_to_process none
        (Except.ok (get_all_organization_repos
          (fun _ => AttemptResult.unexpectedError)).2) = ([], some []) :=
  (load_fresh_query_failure_behaviour
      (fun _ => AttemptResult.unexpectedError) []).1 (fun _ _ => rfl)

theorem parseCheckpointLines_of_trimmed :
    ∀ (fileLines : List String), (∀ l ∈ fileLines, pyStrip l = l) →
      fileLines.filterMap parseCheckpointLine =
        fileLines.filter (fun l => !l.isEmpty) := by
  intro fileLines
  induction fileLines with
  | nil => intro _; rfl
  | cons l rest ih =>
    intro h
    have hl : pyStrip l = l := h l (List.mem_cons_self l rest)
    have hrest := ih (fun x hx => h x (List.mem_cons_of_mem l hx))
    by_cases hemp : l.isEmpty
    · simp [List.filterMap_cons, List.filter_cons, parseCheckpointLine, hl,
        hemp, hrest]
    · simp [List.filterMap_cons, List.filter_cons, parseCheckpointLine, hl,
        hemp, hrest]

/-- C10: when the checkpoint file exists, the load returns one name per
non-blank line, in file order, skipping blank lines (stated for files
whose lines carry no surrounding whitespace, as the ones this program
writes; in general each line is stripped first). -/
theorem load_checkpoint_nonempty_lines
    (fileLines : List String) (repoNamesResult : Except Unit (List String))
    (h : ∀ l ∈ fileLines, pyStrip l = l) :
    (load_repositories_to_process (some fileLines) repoNamesResult).1 =
      fileLines.filter (fun l => !l.isEmpty) ∧
    (load_repositories_to_process (some fileLines) repoNamesResult).2 =
      some fileLines :=
  ⟨parseCheckpointLines_of_trimmed fileLines h, rfl⟩

/-- Witness for C10 on the three-line file `["org/a", "", "org/b"]`. -/
theorem load_checkpoint_nonempty_lines_witness :
    (load_repositories_to_process (some ["org/a", "", "org/b"])
        (Except.error ())).1 = ["org/a", "org/b"] := by
  have h := load_checkpoint_nonempty_lines ["org/a", "", "org/b"]
      (Except.error ()) (by decide)
  rw [h.1]
  rfl

/-- C9: the run exits non-zero (with code 1) exactly when the loaded
worklist is empty — and then the checkpoint state is untouched; otherwise
it dispatches every loaded repository, completes one wrapped unit per
repository regardless of the units' outcomes, deletes the checkpoint, and
exits 0. -/
theorem main_exit_code_policy (checkpoint : Option (List String))
    (repoNamesResult : Except Unit (List String))
    (outcomes : String → Except Unit Unit) :
    (mainRun checkpoint repoNamesResult outcomes).exitCode =
      (if (load_repositories_to_process checkpoint repoNamesResult).1.isEmpty
        then 1 else 0) ∧
    (mainRun checkpoint repoNamesResult outcomes).dispatched =
      (if (load_repositories_to_process checkpoint repoNamesResult).1.isEmpty
        then []
        else (load_repositories_to_process checkpoint repoNamesResult).1) ∧
    (mainRun checkpoint repoNamesResult outcomes).unitResults.length =
      (mainRun checkpoint repoNamesResult outcomes).dispatched.length ∧
    (mainRun checkpoint repoNamesResult outcomes).finalCheckpoint =
      (if (load_repositories_to_process checkpoint repoNamesResult).1.isEmpty
        then (load_repositories_to_process checkpoint repoNamesResult).2
        else none) := by
  by_cases hemp :
      (load_repositories_to_process checkpoint repoNamesResult).1.isEmpty <;>
    simp [mainRun, hemp]
